import Mathlib

/-!
Shallow embedding of the `RangeFilter` class from `trend.py` (Trend-Indicator).

Prices are modelled as exact rationals (`ℚ`).  The source's NaN sentinel for
"no previous value yet" (`np.nan` for the EMA seeds, the previous anchor, the
previous smoothed range, and `np.mean` of an empty list) is modelled as
`Option ℚ` with `none` meaning "still undefined"; the one place where the
source *compares* against a possibly-NaN value (`rfilt != rfilt_prev`) is
modelled by `filtChanged` below, which reproduces the IEEE rule that NaN
compares unequal to everything.  `np.sqrt` (used only inside the standard
deviation) is irrational-valued in general and is modelled by the rational
floor approximation `sqrtQ`; no theorem below depends on its numeric value.
-/

namespace TrendIndicator

/-- One row of the input DataFrame: columns `open`, `high`, `low`, `close`.
(`open` is a Lean keyword, hence the trailing underscore.) -/
structure PriceBar where
  open_ : ℚ
  high : ℚ
  low : ℚ
  close : ℚ
deriving DecidableEq

instance : Inhabited PriceBar := ⟨⟨0, 0, 0, 0⟩⟩

/-- The constructor parameters of `RangeFilter.__init__` (minus the DataFrame).
The enum-like parameters are strings, exactly as in the source, which
dispatches on string equality. -/
structure RangeFilterConfig where
  f_type : String
  mov_src : String
  rng_qty : ℚ
  rng_scale : String
  rng_per : ℕ
  smooth_range : Bool
  smooth_per : ℕ
  av_vals : Bool
  av_samples : ℕ
deriving DecidableEq

/-- `RangeFilter.Cond_EMA`: conditional exponential moving average.
`none` models the `np.nan` "unseeded" state tested by `np.isnan(prev_ema)`. -/
def Cond_EMA (x : ℚ) (cond : Bool) (n : ℕ) (prev_ema : Option ℚ) : Option ℚ :=
  if cond then
    match prev_ema with
    | none => some x
    | some p => some ((x - p) * (2 / ((n : ℚ) + 1)) + p)
  else prev_ema

/-- `RangeFilter.Cond_SMA`: `np.mean` of the list, `np.nan` (= `none`) when empty. -/
def Cond_SMA (x_list : List ℚ) : Option ℚ :=
  if x_list.isEmpty then none else some (x_list.sum / (x_list.length : ℚ))

/-- Rational floor approximation standing in for `np.sqrt`; the exact square
root is irrational in general.  No claim below depends on this value: it only
feeds the `'Standard Deviation'` range-scale branch, whose numeric output no
claim tests. -/
def sqrtQ (x : ℚ) : ℚ := ((Nat.sqrt (x.num.toNat * x.den) : ℚ)) / ((x.den : ℚ))

/-- `np.mean` of a list that is known (at the call site) to be non-empty. -/
def meanQ (l : List ℚ) : ℚ := l.sum / (l.length : ℚ)

/-- `RangeFilter.Stdev`: population standard deviation of the window.
When the source calls it with a non-empty list, `mean` is always `some`
(it is `Cond_SMA` of the very same list), so the `getD 0` default is never
taken on a reachable path. -/
def Stdev (x_list : List ℚ) (mean : Option ℚ) : Option ℚ :=
  if x_list.isEmpty then none
  else some (sqrtQ ((x_list.map (fun v => (v - mean.getD 0) ^ 2)).sum / (x_list.length : ℚ)))

/-- The `append` / `pop(0)`-if-over-capacity idiom the source uses for both
sliding windows (`sd_list` in `rng_size`, `filt_change_values` in `rng_filt`). -/
def pushWindow (l : List ℚ) (x : ℚ) (cap : ℕ) : List ℚ :=
  if (l ++ [x]).length > cap then (l ++ [x]).tail else (l ++ [x])

/-- `self.data['high'].iloc[i]`; all accesses made by `run` are in range, so
the `default` row is never read on a reachable path. -/
def highAt (data : List PriceBar) (i : ℕ) : ℚ := (data.getD i default).high

/-- `self.data['low'].iloc[i]`. -/
def lowAt (data : List PriceBar) (i : ℕ) : ℚ := (data.getD i default).low

/-- `self.data['close'].iloc[i]`. -/
def closeAt (data : List PriceBar) (i : ℕ) : ℚ := (data.getD i default).close

/-- The tuple returned by `RangeFilter.rng_size`. -/
structure RngSizeResult where
  rng_size : ℚ
  prev_ac : Option ℚ
  prev_atr : Option ℚ
  prev_sd : Option ℚ
  ac_list : List ℚ
  sd_list : List ℚ
deriving DecidableEq

/-- `RangeFilter.rng_size`.  The source guards of the form
`qty * prev_atr if prev_atr is not None else 0` are modelled with `getD 0`:
`prev_atr` (likewise `prev_ac`, `prev_sd`) has just been updated with
condition `True`, so it is always `some` when read, and in the source it is
never `None` either (its sentinel is `np.nan`, and `np.nan is not None`). -/
def rng_size (cfg : RangeFilterConfig) (data : List PriceBar) (x : ℚ) (i : ℕ)
    (prev_ac prev_atr prev_sd : Option ℚ) (ac_list sd_list : List ℚ) : RngSizeResult :=
  let qty := cfg.rng_qty
  let n := cfg.rng_per
  let scale := cfg.rng_scale
  let tr : ℚ :=
    if i = 0 then highAt data i - lowAt data i
    else
      max (highAt data i - lowAt data i)
        (max |highAt data i - closeAt data (i - 1)| |lowAt data i - closeAt data (i - 1)|)
  let prev_atr2 := Cond_EMA tr true n prev_atr
  let ac : ℚ := if i = 0 then 0 else |x - ((highAt data (i - 1) + lowAt data (i - 1)) / 2)|
  let prev_ac2 := Cond_EMA ac true n prev_ac
  let sd_list2 := pushWindow sd_list x n
  let mean_sd := Cond_SMA sd_list2
  let prev_sd2 := Stdev sd_list2 mean_sd
  let rs : ℚ :=
    if scale = "Pips" then qty * (1 / 10000)
    else if scale = "Points" then qty * 1
    else if scale = "% of Price" then closeAt data i * qty / 100
    else if scale = "ATR" then qty * prev_atr2.getD 0
    else if scale = "Average Change" then qty * prev_ac2.getD 0
    else if scale = "Standard Deviation" then qty * prev_sd2.getD 0
    else if scale = "Ticks" then qty * (1 / 100)
    else qty
  ⟨rs, prev_ac2, prev_atr2, prev_sd2, ac_list, sd_list2⟩

/-- The smoothed range EMA computed at the top of `rng_filt`
(`Cond_EMA(rng_size_value, True, sn, prev_rng_smooth)`). -/
def smoothedRange (cfg : RangeFilterConfig) (rng_size_value : ℚ)
    (prev_rng_smooth : Option ℚ) : Option ℚ :=
  Cond_EMA rng_size_value true cfg.smooth_per prev_rng_smooth

/-- The effective range `r = prev_rng_smooth if smooth else rng_size_value`.
After the unconditional EMA update the smoothed value is always `some`,
so the `getD 0` default is never taken on a reachable path. -/
def effRange (cfg : RangeFilterConfig) (rng_size_value : ℚ)
    (prev_rng_smooth : Option ℚ) : ℚ :=
  if cfg.smooth_range then (smoothedRange cfg rng_size_value prev_rng_smooth).getD 0
  else rng_size_value

/-- The anchor update of `rng_filt` (lines 213-229 of the source): seed at
`(h + l) / 2` when the previous anchor is undefined, otherwise apply the
`'Type 1'` / `'Type 2'` breakout policy.  Any other `f_type` string leaves
the anchor unchanged, as in the source (neither branch fires). -/
def anchorUpdate (cfg : RangeFilterConfig) (h l r : ℚ) (rfilt_prev : Option ℚ) : ℚ :=
  match rfilt_prev with
  | none => (h + l) / 2
  | some p =>
    if cfg.f_type = "Type 1" then
      if h - r > p then h - r
      else if l + r < p then l + r
      else p
    else if cfg.f_type = "Type 2" then
      if h ≥ p + r then p + ((⌊|h - p| / r⌋ : ℤ) : ℚ) * r
      else if l ≤ p - r then p - ((⌊|l - p| / r⌋ : ℤ) : ℚ) * r
      else p
    else p

/-- `filt_changed = rfilt != rfilt_prev` where `rfilt_prev` may be NaN
(modelled as `none`): NaN compares unequal to everything, so an undefined
previous anchor always counts as changed. -/
def filtChanged (rfilt : ℚ) (rfilt_prev : Option ℚ) : Bool :=
  match rfilt_prev with
  | none => true
  | some p => decide (rfilt ≠ p)

/-- The tuple returned by `RangeFilter.rng_filt`. -/
structure RngFiltResult where
  hi_band : ℚ
  lo_band : ℚ
  rng_filt_value : ℚ
  rfilt_prev : Option ℚ
  prev_rng_smooth : Option ℚ
  filt_change_count : ℕ
  filt_change_values : List ℚ
deriving DecidableEq

/-- `RangeFilter.rng_filt`.  The source computes `hi_band = rfilt + r`,
`lo_band = rfilt - r` and then, when `av_vals` is set, overwrites them with
`rng_filt_value ± r`; here the emitted value `v` is computed first and the
bands once, which yields the same fields branch by branch (when averaging is
off, `v = rfilt`).  The `filt_changed` flag is likewise computed
unconditionally (it is pure); its uses stay guarded by `av_vals` exactly as
in the source. -/
def rng_filt (cfg : RangeFilterConfig) (h l rng_size_value : ℚ) (i : ℕ)
    (rfilt_prev : Option ℚ) (prev_rng_smooth : Option ℚ)
    (filt_change_count : ℕ) (filt_change_values : List ℚ) : RngFiltResult :=
  let prev_rng_smooth2 := smoothedRange cfg rng_size_value prev_rng_smooth
  let r := effRange cfg rng_size_value prev_rng_smooth
  let rfilt := anchorUpdate cfg h l r rfilt_prev
  let changed := filtChanged rfilt rfilt_prev
  let fcv2 :=
    if cfg.av_vals && changed then pushWindow filt_change_values rfilt cfg.av_samples
    else filt_change_values
  let fcc2 :=
    if cfg.av_vals && changed then filt_change_count + 1
    else filt_change_count
  let v :=
    if cfg.av_vals then (if fcv2.isEmpty then rfilt else meanQ fcv2)
    else rfilt
  ⟨v + r, v - r, v, some rfilt, prev_rng_smooth2, fcc2, fcv2⟩

/-- One output row assembled inside the loop of `RangeFilter.run`
(the per-bar slice of the parallel result arrays). -/
structure BarResult where
  filt : ℚ
  h_band : ℚ
  l_band : ℚ
  fdir : ℤ
  upward : ℕ
  downward : ℕ
  filt_color : String
  bar_color : String
  external_trend_output : ℤ
deriving DecidableEq

instance : Inhabited BarResult := ⟨⟨0, 0, 0, 0, 0, 0, "gray", "gray", 0⟩⟩

/-- The mutable loop state of `RangeFilter.run`, plus the result rows
produced so far (`results` grows by one record per bar, mirroring the
`self.filt[i] = ...` array writes). -/
structure RunState where
  prev_ac : Option ℚ
  prev_atr : Option ℚ
  prev_sd : Option ℚ
  ac_list : List ℚ
  sd_list : List ℚ
  prev_rng_smooth : Option ℚ
  rfilt_prev : Option ℚ
  filt_change_count : ℕ
  filt_change_values : List ℚ
  results : List BarResult
deriving DecidableEq

/-- The initialization block of `run` (lines 272-280). -/
def initState : RunState := ⟨none, none, none, [], [], none, none, 0, [], []⟩

/-- `h_val`: high of the bar under `'Wicks'`, else the close. -/
def hVal (cfg : RangeFilterConfig) (data : List PriceBar) (i : ℕ) : ℚ :=
  if cfg.mov_src = "Wicks" then highAt data i else closeAt data i

/-- `l_val`: low of the bar under `'Wicks'`, else the close. -/
def lVal (cfg : RangeFilterConfig) (data : List PriceBar) (i : ℕ) : ℚ :=
  if cfg.mov_src = "Wicks" then lowAt data i else closeAt data i

/-- `x = (h_val + l_val) / 2`, the movement midpoint of bar `i`. -/
def xAt (cfg : RangeFilterConfig) (data : List PriceBar) (i : ℕ) : ℚ :=
  (hVal cfg data i + lVal cfg data i) / 2

/-- The `rng_size` call of iteration `i` of the loop. -/
def rsAt (cfg : RangeFilterConfig) (data : List PriceBar) (i : ℕ) (st : RunState) :
    RngSizeResult :=
  rng_size cfg data (xAt cfg data i) i st.prev_ac st.prev_atr st.prev_sd st.ac_list st.sd_list

/-- The effective range used by iteration `i`. -/
def rAt (cfg : RangeFilterConfig) (data : List PriceBar) (i : ℕ) (st : RunState) : ℚ :=
  effRange cfg (rsAt cfg data i st).rng_size st.prev_rng_smooth

/-- The anchor value after iteration `i`'s ratchet update. -/
def anchorAt (cfg : RangeFilterConfig) (data : List PriceBar) (i : ℕ) (st : RunState) : ℚ :=
  anchorUpdate cfg (hVal cfg data i) (lVal cfg data i) (rAt cfg data i st) st.rfilt_prev

/-- Whether iteration `i` counts as a filter change. -/
def changedAt (cfg : RangeFilterConfig) (data : List PriceBar) (i : ℕ) (st : RunState) : Bool :=
  filtChanged (anchorAt cfg data i st) st.rfilt_prev

/-- The `rng_filt` call of iteration `i` of the loop. -/
def rfAt (cfg : RangeFilterConfig) (data : List PriceBar) (i : ℕ) (st : RunState) :
    RngFiltResult :=
  rng_filt cfg (hVal cfg data i) (lVal cfg data i) (rsAt cfg data i st).rng_size i
    st.rfilt_prev st.prev_rng_smooth st.filt_change_count st.filt_change_values

/-- The direction assignment of lines 308-317: `0` on the first bar, else
compare the freshly computed filter value with the stored `filt[i-1]`. -/
def fdirAt (cfg : RangeFilterConfig) (data : List PriceBar) (i : ℕ) (st : RunState) : ℤ :=
  if i = 0 then 0
  else if (rfAt cfg data i st).rng_filt_value > (st.results.getD (i - 1) default).filt then 1
  else if (rfAt cfg data i st).rng_filt_value < (st.results.getD (i - 1) default).filt then -1
  else (st.results.getD (i - 1) default).fdir

/-- `self.upward[i] = 1 if self.fdir[i] == 1 else 0`. -/
def upwardAt (cfg : RangeFilterConfig) (data : List PriceBar) (i : ℕ) (st : RunState) : ℕ :=
  if fdirAt cfg data i st = 1 then 1 else 0

/-- `self.downward[i] = 1 if self.fdir[i] == -1 else 0`. -/
def downwardAt (cfg : RangeFilterConfig) (data : List PriceBar) (i : ℕ) (st : RunState) : ℕ :=
  if fdirAt cfg data i st = -1 then 1 else 0

/-- The filter-line color assignment (lines 324-344); `if self.upward[i]`
tests numeric truthiness, i.e. `≠ 0`. -/
def filtColorAt (cfg : RangeFilterConfig) (data : List PriceBar) (i : ℕ) (st : RunState) :
    String :=
  if upwardAt cfg data i st ≠ 0 then "#05ff9b"
  else if downwardAt cfg data i st ≠ 0 then "#ff0583"
  else "gray"

/-- The bar color assignment (lines 324-344). -/
def barColorAt (cfg : RangeFilterConfig) (data : List PriceBar) (i : ℕ) (st : RunState) :
    String :=
  if upwardAt cfg data i st ≠ 0 then
    (if closeAt data i > (rfAt cfg data i st).rng_filt_value then
      (if 0 < i ∧ closeAt data i > closeAt data (i - 1) then "#05ff9b" else "#00b36b")
    else "gray")
  else if downwardAt cfg data i st ≠ 0 then
    (if closeAt data i < (rfAt cfg data i st).rng_filt_value then
      (if 0 < i ∧ closeAt data i < closeAt data (i - 1) then "#ff0583" else "#b8005d")
    else "gray")
  else "gray"

/-- The output row written by iteration `i`
(`external_trend_output[i] = fdir[i]`). -/
def barAt (cfg : RangeFilterConfig) (data : List PriceBar) (i : ℕ) (st : RunState) :
    BarResult :=
  ⟨(rfAt cfg data i st).rng_filt_value, (rfAt cfg data i st).hi_band,
    (rfAt cfg data i st).lo_band, fdirAt cfg data i st, upwardAt cfg data i st,
    downwardAt cfg data i st, filtColorAt cfg data i st, barColorAt cfg data i st,
    fdirAt cfg data i st⟩

/-- One iteration of the loop of `RangeFilter.run`: threads the estimator and
ratchet state and appends the bar's output row. -/
def step (cfg : RangeFilterConfig) (data : List PriceBar) (i : ℕ) (st : RunState) :
    RunState :=
  ⟨(rsAt cfg data i st).prev_ac, (rsAt cfg data i st).prev_atr, (rsAt cfg data i st).prev_sd,
    (rsAt cfg data i st).ac_list, (rsAt cfg data i st).sd_list,
    (rfAt cfg data i st).prev_rng_smooth, (rfAt cfg data i st).rfilt_prev,
    (rfAt cfg data i st).filt_change_count, (rfAt cfg data i st).filt_change_values,
    st.results ++ [barAt cfg data i st]⟩

/-- The loop of `run`, executed over the first `k` bar indices. -/
def runAux (cfg : RangeFilterConfig) (data : List PriceBar) (k : ℕ) : RunState :=
  (List.range k).foldl (fun st i => step cfg data i st) initState

/-- `RangeFilter.run`: the full loop over all `n = len(data)` bars. -/
def run (cfg : RangeFilterConfig) (data : List PriceBar) : RunState :=
  runAux cfg data data.length

/-- The output row for bar `j` of a full run. -/
def resAt (cfg : RangeFilterConfig) (data : List PriceBar) (j : ℕ) : BarResult :=
  (run cfg data).results.getD j default

/-- The DataFrame after `run` returns: the original columns together with the
result columns appended by lines 349-358.  `reset_index(drop=True)` in
`__init__` relabels the index without touching any row, so the positional
row model absorbs it. -/
structure ResultFrame where
  open_ : List ℚ
  high : List ℚ
  low : List ℚ
  close : List ℚ
  filt : List ℚ
  h_band : List ℚ
  l_band : List ℚ
  fdir : List ℤ
  upward : List ℕ
  downward : List ℕ
  filt_color : List String
  bar_color : List String
  external_trend_output : List ℤ

/-- `run` followed by the column appends of lines 349-358: the OHLC columns
are carried over from the input, the result columns come from the loop. -/
def runFrame (cfg : RangeFilterConfig) (data : List PriceBar) : ResultFrame :=
  ⟨data.map (·.open_), data.map (·.high), data.map (·.low), data.map (·.close),
    (run cfg data).results.map (·.filt), (run cfg data).results.map (·.h_band),
    (run cfg data).results.map (·.l_band), (run cfg data).results.map (·.fdir),
    (run cfg data).results.map (·.upward), (run cfg data).results.map (·.downward),
    (run cfg data).results.map (·.filt_color), (run cfg data).results.map (·.bar_color),
    (run cfg data).results.map (·.external_trend_output)⟩

/-- The movement midpoints `x` pushed into the standard-deviation window,
one per processed bar. -/
def movXs (cfg : RangeFilterConfig) (data : List PriceBar) (k : ℕ) : List ℚ :=
  (List.range k).map (fun i => xAt cfg data i)

/-- The values pushed into the filter-change window, in push order: one per
bar on which averaging is on and the anchor changed (exactly the bars on
which `filt_change_count` increments). -/
def changePushes (cfg : RangeFilterConfig) (data : List PriceBar) : ℕ → List ℚ
  | 0 => []
  | k + 1 =>
    changePushes cfg data k ++
      (if cfg.av_vals && changedAt cfg data k (runAux cfg data k) then
        [anchorAt cfg data k (runAux cfg data k)]
      else [])

/-! ### Structural lemmas about the loop -/

lemma runAux_zero (cfg : RangeFilterConfig) (data : List PriceBar) :
    runAux cfg data 0 = initState := rfl

lemma runAux_succ (cfg : RangeFilterConfig) (data : List PriceBar) (k : ℕ) :
    runAux cfg data (k + 1) = step cfg data k (runAux cfg data k) := by
  simp [runAux, List.range_succ]

lemma step_results (cfg : RangeFilterConfig) (data : List PriceBar) (i : ℕ) (st : RunState) :
    (step cfg data i st).results = st.results ++ [barAt cfg data i st] := rfl

lemma length_results (cfg : RangeFilterConfig) (data : List PriceBar) :
    ∀ k, (runAux cfg data k).results.length = k := by
  intro k
  induction k with
  | zero => rfl
  | succ k ih => rw [runAux_succ, step_results]; simp [ih]

lemma results_getD (cfg : RangeFilterConfig) (data : List PriceBar) :
    ∀ k i, i < k →
      (runAux cfg data k).results.getD i default = barAt cfg data i (runAux cfg data i) := by
  intro k
  induction k with
  | zero => intro i h; omega
  | succ k ih =>
    intro i h
    rw [runAux_succ, step_results]
    rcases lt_or_eq_of_le (Nat.lt_succ_iff.mp h) with h2 | h2
    · rw [List.getD_append _ _ _ _ (by rw [length_results]; exact h2)]
      exact ih i h2
    · subst h2
      rw [List.getD_append_right _ _ _ _ (le_of_eq (length_results cfg data i)),
        length_results]
      simp

lemma step_sd_list (cfg : RangeFilterConfig) (data : List PriceBar) (i : ℕ) (st : RunState) :
    (step cfg data i st).sd_list = pushWindow st.sd_list (xAt cfg data i) cfg.rng_per := rfl

lemma step_rfilt_prev (cfg : RangeFilterConfig) (data : List PriceBar) (i : ℕ) (st : RunState) :
    (step cfg data i st).rfilt_prev = some (anchorAt cfg data i st) := rfl

lemma step_fcv (cfg : RangeFilterConfig) (data : List PriceBar) (i : ℕ) (st : RunState) :
    (step cfg data i st).filt_change_values =
      (if cfg.av_vals && changedAt cfg data i st then
        pushWindow st.filt_change_values (anchorAt cfg data i st) cfg.av_samples
      else st.filt_change_values) := rfl

lemma step_fcc (cfg : RangeFilterConfig) (data : List PriceBar) (i : ℕ) (st : RunState) :
    (step cfg data i st).filt_change_count =
      (if cfg.av_vals && changedAt cfg data i st then st.filt_change_count + 1
      else st.filt_change_count) := rfl

lemma rng_filt_rfilt_prev (cfg : RangeFilterConfig) (h l rsv : ℚ) (i : ℕ)
    (rfp prs : Option ℚ) (fcc : ℕ) (fcv : List ℚ) :
    (rng_filt cfg h l rsv i rfp prs fcc fcv).rfilt_prev
      = some (anchorUpdate cfg h l (effRange cfg rsv prs) rfp) := rfl

/-! ### Window lemmas -/

lemma drop_append_of_le_len {α : Type} (l l' : List α) (m : ℕ) (h : m ≤ l.length) :
    (l ++ l').drop m = l.drop m ++ l' := by
  induction l generalizing m with
  | nil =>
    simp only [List.length_nil, Nat.le_zero] at h
    subst h
    simp
  | cons a t ih =>
    cases m with
    | zero => simp
    | succ m =>
      simp only [List.cons_append, List.drop_succ_cons]
      exact ih m (by simpa using h)

lemma pushWindow_drop (ps : List ℚ) (x : ℚ) (cap : ℕ) :
    pushWindow (ps.drop (ps.length - cap)) x cap
      = (ps ++ [x]).drop ((ps ++ [x]).length - cap) := by
  have hlen2 : (ps ++ [x]).length = ps.length + 1 := by simp
  rw [hlen2]
  by_cases hc : ps.length < cap
  · have h0 : ps.length - cap = 0 := by omega
    have h1 : ps.length + 1 - cap = 0 := by omega
    rw [h0, h1, List.drop_zero, List.drop_zero]
    unfold pushWindow
    rw [if_neg (by simp; omega)]
  · push_neg at hc
    have hdl : (ps.drop (ps.length - cap)).length = cap := by
      rw [List.length_drop]; omega
    unfold pushWindow
    rw [if_pos (by simp [hdl])]
    rw [← drop_append_of_le_len ps [x] (ps.length - cap) (by omega), List.tail_drop]
    congr 1
    omega

lemma pushWindow_length_pos (l : List ℚ) (x : ℚ) (cap : ℕ) (hcap : 1 ≤ cap) :
    0 < (pushWindow l x cap).length := by
  by_cases hgt : (l ++ [x]).length > cap
  · have he : pushWindow l x cap = (l ++ [x]).tail := by rw [pushWindow, if_pos hgt]
    rw [he]
    simp only [List.length_tail, List.length_append, List.length_singleton]
    simp only [List.length_append, List.length_singleton] at hgt
    omega
  · have he : pushWindow l x cap = l ++ [x] := by rw [pushWindow, if_neg hgt]
    rw [he]
    simp

/-! ### Value-level characterizations of `rng_filt` -/

lemma rng_filt_value_eq (cfg : RangeFilterConfig) (h l rsv : ℚ) (i : ℕ)
    (rfp prs : Option ℚ) (fcc : ℕ) (fcv : List ℚ) :
    (rng_filt cfg h l rsv i rfp prs fcc fcv).rng_filt_value
      = (if cfg.av_vals then
          (if (rng_filt cfg h l rsv i rfp prs fcc fcv).filt_change_values.isEmpty
            then anchorUpdate cfg h l (effRange cfg rsv prs) rfp
            else meanQ ((rng_filt cfg h l rsv i rfp prs fcc fcv).filt_change_values))
        else anchorUpdate cfg h l (effRange cfg rsv prs) rfp) := rfl

lemma rng_filt_value_of_av (cfg : RangeFilterConfig) (h l rsv : ℚ) (i : ℕ)
    (rfp prs : Option ℚ) (fcc : ℕ) (fcv : List ℚ) (hav : cfg.av_vals = true)
    (hne : (rng_filt cfg h l rsv i rfp prs fcc fcv).filt_change_values ≠ []) :
    (rng_filt cfg h l rsv i rfp prs fcc fcv).rng_filt_value
      = meanQ ((rng_filt cfg h l rsv i rfp prs fcc fcv).filt_change_values) := by
  rw [rng_filt_value_eq, hav]
  simp only [if_true]
  rw [if_neg]
  simp only [List.isEmpty_eq_true]
  exact hne

/-- With averaging enabled and at least one sample slot, the filter-change
window is non-empty after every processed bar (the very first bar pushes the
seed anchor, because `rfilt != nan` is `True`). -/
lemma fcv_ne_nil (cfg : RangeFilterConfig) (data : List PriceBar)
    (hav : cfg.av_vals = true) (hn : 1 ≤ cfg.av_samples) :
    ∀ k, 1 ≤ k → (runAux cfg data k).filt_change_values ≠ [] := by
  intro k hk
  induction k with
  | zero => exact absurd hk (by omega)
  | succ k ih =>
    rw [runAux_succ, step_fcv]
    by_cases hc : (cfg.av_vals && changedAt cfg data k (runAux cfg data k)) = true
    · rw [if_pos hc]
      exact List.ne_nil_of_length_pos (pushWindow_length_pos _ _ _ hn)
    · rw [if_neg hc]
      rcases Nat.eq_zero_or_pos k with h0 | h0
      · subst h0
        exfalso
        apply hc
        rw [hav]
        rfl
      · exact ih h0

/-! ### Window contents across the run -/

lemma sd_window_eq (cfg : RangeFilterConfig) (data : List PriceBar) :
    ∀ k, (runAux cfg data k).sd_list
      = (movXs cfg data k).drop ((movXs cfg data k).length - cfg.rng_per) := by
  intro k
  induction k with
  | zero => simp [runAux, movXs, initState]
  | succ k ih =>
    have hm : movXs cfg data (k + 1) = movXs cfg data k ++ [xAt cfg data k] := by
      simp [movXs, List.range_succ]
    rw [runAux_succ, step_sd_list, ih, hm]
    exact pushWindow_drop _ _ _

lemma fcv_window_eq (cfg : RangeFilterConfig) (data : List PriceBar) :
    ∀ k, (runAux cfg data k).filt_change_values
      = (changePushes cfg data k).drop
          ((changePushes cfg data k).length - cfg.av_samples) := by
  intro k
  induction k with
  | zero => simp [runAux, changePushes, initState]
  | succ k ih =>
    rw [runAux_succ, step_fcv]
    by_cases hc : (cfg.av_vals && changedAt cfg data k (runAux cfg data k)) = true
    · rw [if_pos hc, ih]
      have hp : changePushes cfg data (k + 1)
          = changePushes cfg data k ++ [anchorAt cfg data k (runAux cfg data k)] := by
        simp [changePushes, hc]
      rw [hp]
      exact pushWindow_drop _ _ _
    · rw [if_neg hc, ih]
      have hp : changePushes cfg data (k + 1) = changePushes cfg data k := by
        simp [changePushes, hc]
      rw [hp]

/-! ### Concrete instances used by witnesses and counterexamples -/

/-- The source constructor's default arguments. -/
def cfgDefault : RangeFilterConfig :=
  ⟨"Type 1", "Close", 2.618, "Average Change", 14, true, 27, false, 2⟩

/-- A minimal `'Type 1'` configuration: Wicks source, Absolute range scale,
no range smoothing, no change averaging. -/
def cfgW : RangeFilterConfig := ⟨"Type 1", "Wicks", 1, "Absolute", 14, false, 27, false, 2⟩

/-- `'Type 2'` variant of `cfgW`. -/
def cfgT2 : RangeFilterConfig := ⟨"Type 2", "Wicks", 1, "Absolute", 14, false, 27, false, 2⟩

/-- `cfgW` with averaging of filter changes enabled. -/
def cfgAv : RangeFilterConfig := ⟨"Type 1", "Wicks", 1, "Absolute", 14, false, 27, true, 2⟩

/-- `cfgW` with an unrecognized range-scale string. -/
def cfgBogusScale : RangeFilterConfig :=
  ⟨"Type 1", "Wicks", 1, "Garbage", 14, false, 27, false, 2⟩

/-- One price bar. -/
def dataW : List PriceBar := [⟨1, 101, 99, 100⟩]

/-- Two price bars, the second gapping upward. -/
def dataW2 : List PriceBar := [⟨1, 101, 99, 100⟩, ⟨1, 110, 108, 109⟩]

/-! ### Claim theorems -/

/-- Claim C1: in Ratchet mode (`'Type 1'`), on a bar whose previous anchor `p`
is defined, if `h - r ≤ p` and `p ≤ l + r` (with `r` the effective range of
that bar), then the anchor persisted by `rng_filt` is unchanged. -/
theorem ratchet_containment (cfg : RangeFilterConfig) (h l rsv : ℚ) (i : ℕ) (p : ℚ)
    (prs : Option ℚ) (fcc : ℕ) (fcv : List ℚ)
    (hty : cfg.f_type = "Type 1")
    (h1 : h - effRange cfg rsv prs ≤ p) (h2 : p ≤ l + effRange cfg rsv prs) :
    (rng_filt cfg h l rsv i (some p) prs fcc fcv).rfilt_prev = some p := by
  rw [rng_filt_rfilt_prev]
  have ha : anchorUpdate cfg h l (effRange cfg rsv prs) (some p) = p := by
    simp only [anchorUpdate, hty, if_true]
    rw [if_neg (show ¬(h - effRange cfg rsv prs > p) from not_lt.mpr h1),
      if_neg (show ¬(l + effRange cfg rsv prs < p) from not_lt.mpr h2)]
  rw [ha]

/-- Witness for C1 at `h = 101`, `l = 99`, `r = 1`, previous anchor `100`. -/
theorem ratchet_containment_witness :
    ((101 : ℚ) - effRange cfgW 1 none ≤ 100 ∧ (100 : ℚ) ≤ 99 + effRange cfgW 1 none) ∧
    (rng_filt cfgW 101 99 1 1 (some 100) none 0 []).rfilt_prev = some 100 :=
  ⟨⟨by norm_num [effRange, cfgW], by norm_num [effRange, cfgW]⟩,
    ratchet_containment cfgW 101 99 1 1 100 none 0 [] rfl
      (by norm_num [effRange, cfgW]) (by norm_num [effRange, cfgW])⟩

/-- Claim C2: in QuantizedRatchet mode (`'Type 2'`), with a defined previous
anchor `p` and positive effective range `r`: a high breakout (`h ≥ p + r`)
sets the anchor to `p + ⌊|h - p| / r⌋ * r`; otherwise a low breakout
(`l ≤ p - r`) sets it to `p - ⌊|l - p| / r⌋ * r`; otherwise it is unchanged. -/
theorem quantized_ratchet_update (cfg : RangeFilterConfig) (h l rsv : ℚ) (i : ℕ) (p : ℚ)
    (prs : Option ℚ) (fcc : ℕ) (fcv : List ℚ)
    (hty : cfg.f_type = "Type 2") (hr : 0 < effRange cfg rsv prs) :
    (h ≥ p + effRange cfg rsv prs →
      (rng_filt cfg h l rsv i (some p) prs fcc fcv).rfilt_prev
        = some (p + ((⌊|h - p| / effRange cfg rsv prs⌋ : ℤ) : ℚ) * effRange cfg rsv prs)) ∧
    (h < p + effRange cfg rsv prs → l ≤ p - effRange cfg rsv prs →
      (rng_filt cfg h l rsv i (some p) prs fcc fcv).rfilt_prev
        = some (p - ((⌊|l - p| / effRange cfg rsv prs⌋ : ℤ) : ℚ) * effRange cfg rsv prs)) ∧
    (h < p + effRange cfg rsv prs → p - effRange cfg rsv prs < l →
      (rng_filt cfg h l rsv i (some p) prs fcc fcv).rfilt_prev = some p) := by
  refine ⟨fun hge => ?_, fun hlt hle => ?_, fun hlt hgt => ?_⟩ <;>
    rw [rng_filt_rfilt_prev] <;> congr 1 <;>
    simp only [anchorUpdate, hty, reduceIte] <;>
    rw [if_neg (show ¬("Type 2" : String) = "Type 1" by decide)]
  · rw [if_pos hge]
  · rw [if_neg (show ¬(h ≥ p + effRange cfg rsv prs) from not_le.mpr hlt), if_pos hle]
  · rw [if_neg (show ¬(h ≥ p + effRange cfg rsv prs) from not_le.mpr hlt),
      if_neg (show ¬(l ≤ p - effRange cfg rsv prs) from not_le.mpr hgt)]

/-- Witness for C2 at `h = 103.5`, `l = 99`, `r = 1`, previous anchor `100`:
the high breakout branch fires. -/
theorem quantized_ratchet_update_witness :
    ((0 : ℚ) < effRange cfgT2 1 none ∧ (207 / 2 : ℚ) ≥ 100 + effRange cfgT2 1 none) ∧
    (rng_filt cfgT2 (207 / 2) 99 1 1 (some 100) none 0 []).rfilt_prev
      = some (100 + ((⌊|(207 / 2 : ℚ) - 100| / effRange cfgT2 1 none⌋ : ℤ) : ℚ)
          * effRange cfgT2 1 none) :=
  ⟨⟨by norm_num [effRange, cfgT2], by norm_num [effRange, cfgT2]⟩,
    (quantized_ratchet_update cfgT2 (207 / 2) 99 1 1 100 none 0 [] rfl
      (by norm_num [effRange, cfgT2])).1 (by norm_num [effRange, cfgT2])⟩

/-- Claim C3: the bands emitted by `rng_filt` are always the emitted filter
value plus and minus the effective range of that bar (in both the averaging
and non-averaging configurations), and consequently every stored output row
of a full run satisfies `h_band - filt = filt - l_band`. -/
theorem bands_symmetric (cfg : RangeFilterConfig) :
    (∀ (h l rsv : ℚ) (i : ℕ) (rfp prs : Option ℚ) (fcc : ℕ) (fcv : List ℚ),
      (rng_filt cfg h l rsv i rfp prs fcc fcv).hi_band
        = (rng_filt cfg h l rsv i rfp prs fcc fcv).rng_filt_value + effRange cfg rsv prs ∧
      (rng_filt cfg h l rsv i rfp prs fcc fcv).lo_band
        = (rng_filt cfg h l rsv i rfp prs fcc fcv).rng_filt_value - effRange cfg rsv prs) ∧
    (∀ (data : List PriceBar) (j : ℕ),
      (resAt cfg data j).h_band - (resAt cfg data j).filt
        = (resAt cfg data j).filt - (resAt cfg data j).l_band) := by
  constructor
  · intro h l rsv i rfp prs fcc fcv
    exact ⟨rfl, rfl⟩
  · intro data j
    by_cases hj : j < data.length
    · have e : resAt cfg data j = barAt cfg data j (runAux cfg data j) :=
        results_getD cfg data data.length j hj
      rw [e]
      have hb : (barAt cfg data j (runAux cfg data j)).h_band
          = (barAt cfg data j (runAux cfg data j)).filt
            + rAt cfg data j (runAux cfg data j) := rfl
      have lb : (barAt cfg data j (runAux cfg data j)).l_band
          = (barAt cfg data j (runAux cfg data j)).filt
            - rAt cfg data j (runAux cfg data j) := rfl
      rw [hb, lb]
      ring
    · have e : resAt cfg data j = default :=
        List.getD_eq_default _ _ (by rw [run, length_results]; omega)
      rw [e]
      rfl

/-- Claim C4: `direction[0] = 0`; for `i > 0` the direction is `1` when the
filter value rose, `-1` when it fell, and carried forward on ties; and the
up/down indicator of every bar is set exactly when the direction is `1`
(resp. `-1`). -/
theorem direction_rule (cfg : RangeFilterConfig) (data : List PriceBar) (i : ℕ)
    (hi : i < data.length) :
    (i = 0 → (resAt cfg data i).fdir = 0) ∧
    (0 < i → (resAt cfg data i).filt > (resAt cfg data (i - 1)).filt →
      (resAt cfg data i).fdir = 1) ∧
    (0 < i → (resAt cfg data i).filt < (resAt cfg data (i - 1)).filt →
      (resAt cfg data i).fdir = -1) ∧
    (0 < i → (resAt cfg data i).filt = (resAt cfg data (i - 1)).filt →
      (resAt cfg data i).fdir = (resAt cfg data (i - 1)).fdir) ∧
    ((resAt cfg data i).upward = 1 ↔ (resAt cfg data i).fdir = 1) ∧
    ((resAt cfg data i).downward = 1 ↔ (resAt cfg data i).fdir = -1) := by
  have hres : resAt cfg data i = barAt cfg data i (runAux cfg data i) :=
    results_getD cfg data data.length i hi
  have hfd : (resAt cfg data i).fdir = fdirAt cfg data i (runAux cfg data i) := by
    rw [hres]
    rfl
  have hfl : (resAt cfg data i).filt
      = (rfAt cfg data i (runAux cfg data i)).rng_filt_value := by
    rw [hres]
    rfl
  have hprev : 0 < i →
      (runAux cfg data i).results.getD (i - 1) default = resAt cfg data (i - 1) := by
    intro hpos
    rw [results_getD cfg data i (i - 1) (by omega)]
    exact (results_getD cfg data data.length (i - 1) (by omega)).symm
  refine ⟨?_, ?_, ?_, ?_, ?_, ?_⟩
  · intro h0
    subst h0
    rw [hfd]
    rfl
  · intro hpos hgt
    rw [hfd, fdirAt, if_neg (show ¬ i = 0 by omega), hprev hpos]
    rw [if_pos (hfl ▸ hgt)]
  · intro hpos hlt
    rw [hfd, fdirAt, if_neg (show ¬ i = 0 by omega), hprev hpos]
    rw [if_neg (show ¬((rfAt cfg data i (runAux cfg data i)).rng_filt_value
        > (resAt cfg data (i - 1)).filt) from not_lt.mpr (le_of_lt (hfl ▸ hlt)))]
    rw [if_pos (hfl ▸ hlt)]
  · intro hpos heq
    rw [hfd, fdirAt, if_neg (show ¬ i = 0 by omega), hprev hpos]
    rw [if_neg (show ¬((rfAt cfg data i (runAux cfg data i)).rng_filt_value
        > (resAt cfg data (i - 1)).filt) from not_lt.mpr (le_of_eq (hfl ▸ heq)))]
    rw [if_neg (show ¬((rfAt cfg data i (runAux cfg data i)).rng_filt_value
        < (resAt cfg data (i - 1)).filt) from not_lt.mpr (ge_of_eq (hfl ▸ heq)))]
  · rw [hres]
    show upwardAt cfg data i (runAux cfg data i) = 1
      ↔ fdirAt cfg data i (runAux cfg data i) = 1
    by_cases hc : fdirAt cfg data i (runAux cfg data i) = 1
    · simp [upwardAt, hc]
    · simp [upwardAt, hc]
  · rw [hres]
    show downwardAt cfg data i (runAux cfg data i) = 1
      ↔ fdirAt cfg data i (runAux cfg data i) = -1
    by_cases hc : fdirAt cfg data i (runAux cfg data i) = -1
    · simp [downwardAt, hc]
    · simp [downwardAt, hc]

/-- Witness for C4 on the two-bar upward-gap data: the second bar's upward
flag agrees with its direction being `1`. -/
theorem direction_rule_witness :
    1 < dataW2.length ∧
    ((resAt cfgW dataW2 1).upward = 1 ↔ (resAt cfgW dataW2 1).fdir = 1) :=
  ⟨by decide, (direction_rule cfgW dataW2 1 (by decide)).2.2.2.2.1⟩

/-- Claim C5: on a non-empty input with `movementSource = Wicks` and averaging
disabled, `filterValue[0]` is the midpoint of the first bar's high and low
(the anchor seed), and `direction[0] = 0`. -/
theorem first_bar_seed (cfg : RangeFilterConfig) (data : List PriceBar)
    (hmov : cfg.mov_src = "Wicks") (hav : cfg.av_vals = false) (hne : data ≠ []) :
    (resAt cfg data 0).filt = (highAt data 0 + lowAt data 0) / 2 ∧
    (resAt cfg data 0).fdir = 0 := by
  obtain ⟨fT, mS, rQ, rS, rP, sR, sP, aV, aN⟩ := cfg
  simp only at hmov hav
  subst hmov
  subst hav
  have h0 : 0 < data.length := List.length_pos.mpr hne
  have hres : resAt ⟨fT, "Wicks", rQ, rS, rP, sR, sP, false, aN⟩ data 0
      = barAt ⟨fT, "Wicks", rQ, rS, rP, sR, sP, false, aN⟩ data 0 initState :=
    results_getD _ data data.length 0 h0
  rw [hres]
  exact ⟨rfl, rfl⟩

/-- Witness for C5 on the one-bar data. -/
theorem first_bar_seed_witness :
    (cfgW.mov_src = "Wicks" ∧ cfgW.av_vals = false ∧ dataW ≠ []) ∧
    ((resAt cfgW dataW 0).filt = (highAt dataW 0 + lowAt dataW 0) / 2 ∧
      (resAt cfgW dataW 0).fdir = 0) :=
  ⟨⟨rfl, rfl, by decide⟩, first_bar_seed cfgW dataW rfl rfl (by decide)⟩

/-- Claim C6 counterexample: with the unrecognized range scale `"Garbage"`,
the program does not fail before processing: the run completes, emits one
result for the single input bar, and that result is identical to the result
under the `'Absolute'` scale — the silent default fallthrough of the
`rng_size` if-chain. -/
theorem unknown_scale_runs :
    (run cfgBogusScale dataW).results.length = 1 ∧
    (run cfgBogusScale dataW).results = (run cfgW dataW).results :=
  ⟨by decide, rfl⟩

/-- Claim C6 (amended): an unrecognized `rng_scale` is not rejected and does
not abort anything: the range-size selection silently falls through to the
final else branch (the `'Absolute'` behavior, `rng_size = rng_qty`), and the
run completes, emitting one result per input bar. -/
theorem unknown_scale_fallback (cfg : RangeFilterConfig)
    (hs : cfg.rng_scale ∉ (["Pips", "Points", "% of Price", "ATR",
      "Average Change", "Standard Deviation", "Ticks"] : List String)) :
    (∀ (data : List PriceBar) (x : ℚ) (i : ℕ) (pac patr psd : Option ℚ)
      (acl sdl : List ℚ),
      (rng_size cfg data x i pac patr psd acl sdl).rng_size = cfg.rng_qty) ∧
    (∀ data : List PriceBar, (run cfg data).results.length = data.length) := by
  constructor
  · intro data x i pac patr psd acl sdl
    simp only [List.mem_cons, List.mem_singleton, not_or] at hs
    obtain ⟨n1, n2, n3, n4, n5, n6, n7, -⟩ := hs
    simp only [rng_size, if_neg n1, if_neg n2, if_neg n3, if_neg n4, if_neg n5,
      if_neg n6, if_neg n7]
  · intro data
    rw [run, length_results]

/-- Witness for C6 (amended) at the `"Garbage"` scale on the one-bar data. -/
theorem unknown_scale_fallback_witness :
    cfgBogusScale.rng_scale ∉ (["Pips", "Points", "% of Price", "ATR",
      "Average Change", "Standard Deviation", "Ticks"] : List String) ∧
    (rng_size cfgBogusScale dataW 100 0 none none none [] []).rng_size
      = cfgBogusScale.rng_qty ∧
    (run cfgBogusScale dataW).results.length = dataW.length :=
  ⟨by decide,
    (unknown_scale_fallback cfgBogusScale (by decide)).1 dataW 100 0 none none none [] [],
    (unknown_scale_fallback cfgBogusScale (by decide)).2 dataW⟩

/-- Claim C7 counterexample: on the empty input sequence the run completes
normally with an empty, index-aligned output instead of aborting with an
input error — the source's `run` contains no validation of any kind, its
loop body simply never executes. -/
theorem empty_input_completes :
    (run cfgDefault []).results = [] ∧ (runFrame cfgDefault []).filt = [] :=
  ⟨rfl, rfl⟩

/-- Claim C7 (amended): the core performs no input validation: for every
configuration the empty input yields the empty output without any error, and
in general the run always completes, emitting exactly one result per input
bar whatever numeric values the bars hold.  (IEEE non-finite values are not
representable in this exact-rational model; in the source they are likewise
undetected — no check exists — and simply propagate through the arithmetic.) -/
theorem run_no_input_validation (cfg : RangeFilterConfig) :
    (run cfg []).results = [] ∧
    ∀ data : List PriceBar, (run cfg data).results.length = data.length :=
  ⟨rfl, fun data => by rw [run, length_results]⟩

/-- Claim C8: the OHLC columns of the frame produced by the run are exactly
the input bars' values, bar for bar: the run only appends new result columns
(`reset_index(drop=True)` relabels the positional index without touching any
row, and no statement ever writes to the four input columns). -/
theorem input_columns_preserved (cfg : RangeFilterConfig) (data : List PriceBar) :
    (runFrame cfg data).open_ = data.map (·.open_) ∧
    (runFrame cfg data).high = data.map (·.high) ∧
    (runFrame cfg data).low = data.map (·.low) ∧
    (runFrame cfg data).close = data.map (·.close) :=
  ⟨rfl, rfl, rfl, rfl⟩

/-- Claim C9: after every bar of every run, the standard-deviation window
holds at most `rng_per` entries and the filter-change window holds at most
`av_samples` entries; moreover each window is exactly the suffix of its
sequence of pushed values that fits the capacity — so on overflow it is
always the oldest entry that was evicted (FIFO). -/
theorem windows_bounded_fifo (cfg : RangeFilterConfig) (data : List PriceBar) (k : ℕ) :
    (runAux cfg data k).sd_list.length ≤ cfg.rng_per ∧
    (runAux cfg data k).filt_change_values.length ≤ cfg.av_samples ∧
    (runAux cfg data k).sd_list
      = (movXs cfg data k).drop ((movXs cfg data k).length - cfg.rng_per) ∧
    (runAux cfg data k).filt_change_values
      = (changePushes cfg data k).drop
          ((changePushes cfg data k).length - cfg.av_samples) := by
  refine ⟨?_, ?_, sd_window_eq cfg data k, fcv_window_eq cfg data k⟩
  · rw [sd_window_eq cfg data k, List.length_drop]
    omega
  · rw [fcv_window_eq cfg data k, List.length_drop]
    omega

/-- Claim C10: with change averaging enabled (and a positive sample count),
the first bar's seed anchor itself counts as a filter change — it is pushed
into the change window and the counter becomes `1` — and after every bar the
change window is non-empty and the emitted filter value is the mean of the
window (the empty-window fallback to the raw anchor is never taken). -/
theorem averaging_seed_counted (cfg : RangeFilterConfig) (data : List PriceBar) (i : ℕ)
    (hav : cfg.av_vals = true) (hn : 1 ≤ cfg.av_samples) (hi : i < data.length) :
    ((runAux cfg data 1).filt_change_values = [xAt cfg data 0] ∧
      (runAux cfg data 1).filt_change_count = 1) ∧
    (runAux cfg data (i + 1)).filt_change_values ≠ [] ∧
    (resAt cfg data i).filt = meanQ ((runAux cfg data (i + 1)).filt_change_values) := by
  have e0 : (runAux cfg data 1).filt_change_values
      = (if (cfg.av_vals && true) = true then
          pushWindow [] (xAt cfg data 0) cfg.av_samples else []) := rfl
  have e0c : (runAux cfg data 1).filt_change_count
      = (if (cfg.av_vals && true) = true then 0 + 1 else 0) := rfl
  rw [hav] at e0 e0c
  simp only [Bool.and_self, if_pos] at e0 e0c
  refine ⟨⟨?_, e0c⟩, fcv_ne_nil cfg data hav hn (i + 1) (by omega), ?_⟩
  · rw [e0, pushWindow]
    rw [if_neg (by simp; omega)]
    simp
  · have hres : resAt cfg data i = barAt cfg data i (runAux cfg data i) :=
      results_getD cfg data data.length i hi
    have hw : (runAux cfg data (i + 1)).filt_change_values
        = (rfAt cfg data i (runAux cfg data i)).filt_change_values := by
      rw [runAux_succ]
      rfl
    have hne2 : (rfAt cfg data i (runAux cfg data i)).filt_change_values ≠ [] := by
      rw [← hw]
      exact fcv_ne_nil cfg data hav hn (i + 1) (by omega)
    have hfl : (resAt cfg data i).filt
        = (rfAt cfg data i (runAux cfg data i)).rng_filt_value := by
      rw [hres]
      rfl
    rw [hfl, hw, rfAt]
    exact rng_filt_value_of_av _ _ _ _ _ _ _ _ _ hav hne2

/-- Witness for C10 on the one-bar data with averaging enabled. -/
theorem averaging_seed_counted_witness :
    (cfgAv.av_vals = true ∧ 1 ≤ cfgAv.av_samples ∧ 0 < dataW.length) ∧
    (((runAux cfgAv dataW 1).filt_change_values = [xAt cfgAv dataW 0] ∧
        (runAux cfgAv dataW 1).filt_change_count = 1) ∧
      (runAux cfgAv dataW (0 + 1)).filt_change_values ≠ [] ∧
      (resAt cfgAv dataW 0).filt = meanQ ((runAux cfgAv dataW (0 + 1)).filt_change_values)) :=
  ⟨⟨rfl, by decide, by decide⟩, averaging_seed_counted cfgAv dataW 0 rfl (by decide) (by decide)⟩

end TrendIndicator
